import Mathlib

/-!
Verification of the padertorch Trainer/Trigger subsystem.

This file gives a shallow embedding, in Lean 4, of the trigger and trainer
logic of `padertorch/train/trigger.py` and `padertorch/train/trainer.py`:
Python integers become `Int` (Python's `%` on integers agrees with `Int.emod`),
Python floats are modelled as exact rationals `Rat`, dictionaries become
association lists in insertion order, and raised exceptions become explicit
error values.  Theorems below settle the specification claims about this code.
-/

namespace Padertorch

/-- The `unit` argument of `IntervalTrigger`: `'epoch'` or `'iteration'`. -/
inductive TUnit where
  | epoch
  | iteration
  deriving DecidableEq

/-- A Python value, as far as the `IntervalTrigger.__init__` argument checks
can distinguish one: an int, a float, a string, or `None`
(`trigger.py` line 74 checks `isinstance(self.period, int)`). -/
inductive PyVal where
  | int (n : Int)
  | float (q : Rat)
  | str (s : String)
  | pyNone
  deriving DecidableEq

/-- State of `IntervalTrigger` (`trigger.py` lines 73-77): a period, a unit,
and the watermark `last`, initialized to `0` by `__init__`. -/
structure IntervalTrigger where
  period : Int
  unit : TUnit
  last : Int
  deriving DecidableEq

/-- `IntervalTrigger.__init__` (`trigger.py` lines 73-77): stores `period`,
asserts `isinstance(period, int)`, asserts `unit` is the string `'epoch'` or
`'iteration'`, and initializes `last = 0`.  A failed assert is an error. -/
def IntervalTrigger.init (period : PyVal) (unit : String) : Except String IntervalTrigger :=
  match period with
  | .int n =>
    if unit = "epoch" then .ok { period := n, unit := .epoch, last := 0 }
    else if unit = "iteration" then .ok { period := n, unit := .iteration, last := 0 }
    else .error "AssertionError: unit"
  | _ => .error "AssertionError: period must be an int"

/-- The counter selected by a unit (`trigger.py` lines 80-85). -/
def selectedIndex (u : TUnit) (iteration epoch : Int) : Int :=
  match u with
  | .epoch => epoch
  | .iteration => iteration

/-- `IntervalTrigger.__call__` (`trigger.py` lines 79-91): select the counter
for the unit; if it equals the watermark `last`, return `False` with the state
unchanged; otherwise update `last` to the counter and return
`(index % period) == 0`. -/
def IntervalTrigger.call (t : IntervalTrigger) (iteration epoch : Int) :
    Bool × IntervalTrigger :=
  let index := selectedIndex t.unit iteration epoch
  if t.last = index then (false, t)
  else (index % t.period == 0, { t with last := index })

/-- `IntervalTrigger.set_last` (`trigger.py` lines 93-99): seed the watermark
with the counter selected by the unit. -/
def IntervalTrigger.setLast (t : IntervalTrigger) (iteration epoch : Int) :
    IntervalTrigger :=
  { t with last := selectedIndex t.unit iteration epoch }

/-- `EndTrigger.__call__` (`trigger.py` lines 103-139): fires once the counter
selected by the unit has reached or passed `period`; no watermark update. -/
def EndTrigger.call (t : IntervalTrigger) (iteration epoch : Int) : Bool :=
  t.period ≤ selectedIndex t.unit iteration epoch

/-- Run a sequence of `__call__`s against an `IntervalTrigger`, collecting the
returned booleans (the trigger state threads through the calls). -/
def IntervalTrigger.runCalls : IntervalTrigger → List (Int × Int) → List Bool
  | _, [] => []
  | t, c :: rest =>
    let r := t.call c.1 c.2
    r.1 :: r.2.runCalls rest

/-- The list of counters a call sequence presents to a trigger of unit `u`. -/
def selList (u : TUnit) (calls : List (Int × Int)) : List Int :=
  calls.map fun c => selectedIndex u c.1 c.2

/-- A list of integers is non-decreasing (each element is at most the next). -/
def nondecreasing : List Int → Bool
  | [] => true
  | [_] => true
  | a :: b :: rest => a ≤ b && nondecreasing (b :: rest)

theorem call_unit (t : IntervalTrigger) (i e : Int) :
    ((t.call i e).2).unit = t.unit := by
  unfold IntervalTrigger.call
  dsimp only
  split <;> rfl

theorem call_period (t : IntervalTrigger) (i e : Int) :
    ((t.call i e).2).period = t.period := by
  unfold IntervalTrigger.call
  dsimp only
  split <;> rfl

theorem call_last (t : IntervalTrigger) (i e : Int) :
    ((t.call i e).2).last = selectedIndex t.unit i e := by
  unfold IntervalTrigger.call
  dsimp only
  split
  · next h => exact h
  · rfl

/-- Result of the `k`-th call in a sequence: fires iff the selected counter
divides out by the period and differs from the watermark before the call,
which is the previous call's counter (or the initial watermark). -/
theorem runCalls_getD (calls : List (Int × Int)) :
    ∀ (t : IntervalTrigger) (k : Nat), k < calls.length →
      ((t.runCalls calls).getD k false = true ↔
        ((selList t.unit calls).getD k 0 % t.period = 0 ∧
          (selList t.unit calls).getD k 0 ≠
            (if k = 0 then t.last else (selList t.unit calls).getD (k - 1) 0))) := by
  induction calls with
  | nil => intro t k hk; simp at hk
  | cons c rest ih =>
    intro t k hk
    match k with
    | 0 =>
      show ((t.call c.1 c.2).1 :: _).getD 0 false = true ↔ _
      simp only [List.getD_cons_zero, if_pos rfl, selList, List.map_cons]
      unfold IntervalTrigger.call
      dsimp only
      split
      · next h =>
        simp only [show (false = true) = False from by simp]
        constructor
        · intro hf; exact hf.elim
        · rintro ⟨-, hne⟩; exact hne h.symm
      · next h =>
        simp only [beq_iff_eq]
        constructor
        · intro hz; exact ⟨hz, fun hc => h hc.symm⟩
        · rintro ⟨hz, -⟩; exact hz
    | k + 1 =>
      have hrest : k < rest.length := by
        simpa [List.length_cons] using Nat.lt_of_succ_lt_succ hk
      have hu := call_unit t c.1 c.2
      have hp := call_period t c.1 c.2
      have hl := call_last t c.1 c.2
      have ihk := ih (t.call c.1 c.2).2 k hrest
      show ((t.call c.1 c.2).1 :: (t.call c.1 c.2).2.runCalls rest).getD (k+1) false
          = true ↔ _
      rw [List.getD_cons_succ]
      rw [ihk, hu, hp, hl]
      simp only [selList, List.map_cons]
      match k with
      | 0 => simp
      | k + 1 =>
        simp only [List.getD_cons_succ, Nat.add_sub_cancel]
        rfl

/-- C1: for every `period > 0`, unit in `{epoch, iteration}`, and call sequence
with non-negative, non-decreasing counters, a freshly constructed
`IntervalTrigger` (watermark `last = 0`) returns `true` at the `k`-th call
exactly when the selected counter is a non-negative multiple of `period` and
differs from the previously observed value for that unit; moreover a call
whose selected counter equals the watermark returns `false` with the state
unchanged, and any other call updates the watermark to the counter. -/
theorem C1_interval_trigger_evaluate
    (period : Int) (hp : 0 < period) (u : TUnit) (calls : List (Int × Int))
    (hnn : ∀ c ∈ calls, 0 ≤ c.1 ∧ 0 ≤ c.2)
    (hmono : nondecreasing (selList u calls) = true)
    (k : Nat) (hk : k < calls.length)
    (t : IntervalTrigger) (i e : Int) :
    (((IntervalTrigger.runCalls { period := period, unit := u, last := 0 } calls).getD
        k false = true) ↔
      ((0 ≤ (selList u calls).getD k 0 ∧ period ∣ (selList u calls).getD k 0) ∧
        (selList u calls).getD k 0 ≠
          (if k = 0 then 0 else (selList u calls).getD (k - 1) 0)))
    ∧ (selectedIndex t.unit i e = t.last → t.call i e = (false, t))
    ∧ (selectedIndex t.unit i e ≠ t.last →
        t.call i e = ((selectedIndex t.unit i e % t.period == 0),
          { t with last := selectedIndex t.unit i e })) := by
  have hlen : (selList u calls).length = calls.length := by
    simp [selList]
  have hsel : 0 ≤ (selList u calls).getD k 0 := by
    have hk' : k < (selList u calls).length := by rw [hlen]; exact hk
    rw [List.getD_eq_getElem _ _ hk']
    simp only [selList, List.getElem_map]
    have hmem : calls[k] ∈ calls := List.getElem_mem hk
    have := hnn _ hmem
    cases u with
    | epoch => exact this.2
    | iteration => exact this.1
  refine ⟨?_, ?_, ?_⟩
  · rw [runCalls_getD calls _ k hk]
    constructor
    · rintro ⟨hz, hne⟩
      exact ⟨⟨hsel, Int.dvd_of_emod_eq_zero hz⟩, hne⟩
    · rintro ⟨⟨-, hdvd⟩, hne⟩
      exact ⟨Int.emod_eq_zero_of_dvd hdvd, hne⟩
  · intro h
    unfold IntervalTrigger.call
    dsimp only
    rw [if_pos h.symm]
  · intro h
    unfold IntervalTrigger.call
    dsimp only
    rw [if_neg fun hc => h hc.symm]

/-- Witness for C1: a concrete run of `IntervalTrigger(2, 'iteration')` over
the non-decreasing counter sequence `0, 1, 2, 2, 4`: the third call (counter
`2`, previous counter `1`) fires; a call at the watermark leaves the state
unchanged and returns `false`; a call off the watermark updates it. -/
theorem C1_interval_trigger_evaluate_witness :
    ((IntervalTrigger.runCalls { period := 2, unit := TUnit.iteration, last := 0 }
        [((0:Int),(0:Int)), (1,0), (2,0), (2,0), (4,1)]).getD 2 false = true)
    ∧ IntervalTrigger.call { period := 2, unit := TUnit.iteration, last := 5 } 5 0
        = (false, { period := 2, unit := TUnit.iteration, last := 5 })
    ∧ IntervalTrigger.call { period := 2, unit := TUnit.iteration, last := 5 } 6 0
        = (true, { period := 2, unit := TUnit.iteration, last := 6 }) := by
  have H := C1_interval_trigger_evaluate 2 (by decide) TUnit.iteration
      [((0:Int),(0:Int)), (1,0), (2,0), (2,0), (4,1)] (by decide) (by decide)
      2 (by decide) { period := 2, unit := TUnit.iteration, last := 5 } 5 0
  have H2 := C1_interval_trigger_evaluate 2 (by decide) TUnit.iteration
      [((0:Int),(0:Int)), (1,0), (2,0), (2,0), (4,1)] (by decide) (by decide)
      2 (by decide) { period := 2, unit := TUnit.iteration, last := 5 } 6 0
  refine ⟨H.1.mpr ⟨⟨by decide, ⟨1, by decide⟩⟩, by decide⟩, H.2.1 (by decide), ?_⟩
  rw [H2.2.2 (by decide)]
  decide

/-- C8 counterexample: `IntervalTrigger.__init__` accepts `period = 0`
(`trigger.py` line 74 only asserts `isinstance(period, int)`, never
positivity), so construction succeeds for a non-positive period, contrary to
the claim that it succeeds only for positive periods. -/
theorem C8_init_counterexample :
    IntervalTrigger.init (PyVal.int 0) "iteration"
      = Except.ok { period := 0, unit := TUnit.iteration, last := 0 }
    ∧ ¬ (0 : Int) > 0 := by
  exact ⟨rfl, by decide⟩

/-- C8 amended: construction of `IntervalTrigger` succeeds exactly when
`period` is an integer (of any sign — positivity is not validated) and `unit`
is exactly one of the strings `'epoch'` and `'iteration'`; any other argument
fails the constructor's assertions. -/
theorem C8_init_validation (p : PyVal) (u : String) :
    (∃ t, IntervalTrigger.init p u = Except.ok t) ↔
      ((∃ n, p = PyVal.int n) ∧ (u = "epoch" ∨ u = "iteration")) := by
  cases p with
  | int n =>
    unfold IntervalTrigger.init
    dsimp only
    by_cases he : u = "epoch"
    · rw [if_pos he]
      exact ⟨fun _ => ⟨⟨n, rfl⟩, Or.inl he⟩, fun _ => ⟨_, rfl⟩⟩
    · rw [if_neg he]
      by_cases hi : u = "iteration"
      · rw [if_pos hi]
        exact ⟨fun _ => ⟨⟨n, rfl⟩, Or.inr hi⟩, fun _ => ⟨_, rfl⟩⟩
      · rw [if_neg hi]
        constructor
        · rintro ⟨t, ht⟩; exact absurd ht (by simp)
        · rintro ⟨-, h | h⟩
          · exact absurd h he
          · exact absurd h hi
  | float q =>
    constructor
    · rintro ⟨t, ht⟩; exact absurd ht (by simp [IntervalTrigger.init])
    · rintro ⟨⟨n, hn⟩, -⟩; exact absurd hn (by simp)
  | str s =>
    constructor
    · rintro ⟨t, ht⟩; exact absurd ht (by simp [IntervalTrigger.init])
    · rintro ⟨⟨n, hn⟩, -⟩; exact absurd hn (by simp)
  | pyNone =>
    constructor
    · rintro ⟨t, ht⟩; exact absurd ht (by simp [IntervalTrigger.init])
    · rintro ⟨⟨n, hn⟩, -⟩; exact absurd hn (by simp)

/-- Errors `Trainer.backward` can raise (`trainer.py` lines 276-287): the
explicit multiple-losses-without-weights exception, or a Python `KeyError`
when `loss_weights` is set but lacks a loss name. -/
inductive BackwardErr where
  | multipleLossesWithoutWeights
  | keyErr (k : String)
  deriving DecidableEq

/-- One accumulation step of `backward` when `loss_weights` is set:
`loss += loss_weights[key] * value`, a missing key being a `KeyError`. -/
def lossStep (w : List (String × Rat)) (acc : Rat) (kv : String × Rat) :
    Except BackwardErr Rat :=
  match w.lookup kv.1 with
  | some wt => Except.ok (acc + wt * kv.2)
  | none => Except.error (BackwardErr.keyErr kv.1)

/-- The loss aggregation of `Trainer.backward` (`trainer.py` lines 276-287):
start from `loss = 0`; raise if `loss_weights is None` and the number of
losses differs from 1; otherwise accumulate `weight * value` over the losses
in insertion order, the weight being `loss_weights[key]` when weights are set
(a missing key is a `KeyError`) and `1` otherwise.  Float values are modelled
as exact rationals. -/
def backwardTotalLoss (lossWeights : Option (List (String × Rat)))
    (losses : List (String × Rat)) : Except BackwardErr Rat :=
  if lossWeights.isNone ∧ losses.length ≠ 1 then
    .error .multipleLossesWithoutWeights
  else
    match lossWeights with
    | some w => losses.foldlM (lossStep w) 0
    | none => losses.foldlM (fun acc kv => Except.ok (acc + 1 * kv.2)) 0

theorem backward_fold_weights (w : List (String × Rat)) :
    ∀ (l : List (String × Rat)) (acc : Rat),
      (∀ kv ∈ l, (w.lookup kv.1).isSome = true) →
      l.foldlM (lossStep w) acc
      = Except.ok (l.foldl (fun acc kv => acc + (w.lookup kv.1).getD 0 * kv.2) acc) := by
  intro l
  induction l with
  | nil => intro acc _; rfl
  | cons x rest ih =>
    intro acc hcov
    have hx : (w.lookup x.1).isSome = true := hcov x (List.mem_cons_self x rest)
    rw [List.foldlM_cons, List.foldl_cons]
    match hw : w.lookup x.1 with
    | some wt =>
      have hstep : lossStep w acc x = Except.ok (acc + wt * x.2) := by
        unfold lossStep; rw [hw]
      rw [hstep]
      show rest.foldlM (lossStep w) (acc + wt * x.2) = _
      rw [ih (acc + wt * x.2) (fun kv hkv => hcov kv (List.mem_cons_of_mem x hkv))]
      rfl
    | none => rw [hw] at hx; exact absurd hx (by simp)

theorem backward_fold_weights_no_config_error (w : List (String × Rat)) :
    ∀ (l : List (String × Rat)) (acc : Rat),
      l.foldlM (lossStep w) acc
      ≠ Except.error BackwardErr.multipleLossesWithoutWeights := by
  intro l
  induction l with
  | nil => intro acc h; exact Except.noConfusion h
  | cons x rest ih =>
    intro acc
    rw [List.foldlM_cons]
    match hw : w.lookup x.1 with
    | some wt =>
      have hstep : lossStep w acc x = Except.ok (acc + wt * x.2) := by
        unfold lossStep; rw [hw]
      rw [hstep]
      exact ih (acc + wt * x.2)
    | none =>
      have hstep : lossStep w acc x = Except.error (BackwardErr.keyErr x.1) := by
        unfold lossStep; rw [hw]
      rw [hstep]
      intro h
      have := Except.error.inj h
      exact BackwardErr.noConfusion this

/-- C2: `backward` computes the total loss as the weighted sum of the losses
in insertion order (`weight[name] * losses[name]`, weight defaulting to 1 when
`loss_weights` is unset), a single loss with no weights yields that loss
value, and — over review dicts with a non-empty loss mapping whose keys are
covered by `loss_weights` when the latter is set — the configuration error is
raised exactly when `loss_weights` is unset and there are two or more
losses. -/
theorem C2_backward_loss_aggregation
    (losses : List (String × Rat)) (hne : losses ≠ []) :
    (∀ w : List (String × Rat), (∀ kv ∈ losses, (w.lookup kv.1).isSome = true) →
        backwardTotalLoss (some w) losses =
          Except.ok (losses.foldl
            (fun acc kv => acc + (w.lookup kv.1).getD 0 * kv.2) 0))
    ∧ (∀ (k : String) (v : Rat), backwardTotalLoss none [(k, v)] = Except.ok v)
    ∧ ((backwardTotalLoss none losses
          = Except.error BackwardErr.multipleLossesWithoutWeights)
        ↔ 2 ≤ losses.length)
    ∧ (∀ w : List (String × Rat),
        backwardTotalLoss (some w) losses
          ≠ Except.error BackwardErr.multipleLossesWithoutWeights) := by
  refine ⟨?_, ?_, ?_, ?_⟩
  · intro w hcov
    unfold backwardTotalLoss
    rw [if_neg (by simp)]
    exact backward_fold_weights w losses 0 hcov
  · intro k v
    unfold backwardTotalLoss
    rw [if_neg (by simp)]
    show Except.ok (0 + 1 * v) = Except.ok v
    norm_num
  · constructor
    · intro herr
      by_contra hlt
      have h1 : losses.length = 1 := by
        have h0 : losses.length ≠ 0 := by
          simpa [List.length_eq_zero] using hne
        omega
      match losses, h1 with
      | [x], _ =>
        unfold backwardTotalLoss at herr
        rw [if_neg (by simp)] at herr
        simp [List.foldlM] at herr
    · intro hlen
      unfold backwardTotalLoss
      rw [if_pos ⟨rfl, by omega⟩]
  · intro w
    unfold backwardTotalLoss
    rw [if_neg (by simp)]
    exact backward_fold_weights_no_config_error w losses 0

/-- Witness for C2: `losses = ('a': 2, 'b': 3)` with weights
`('a': 0.5, 'b': 1)` gives total loss `4`; a single unweighted loss gives its
own value; two unweighted losses raise the configuration error. -/
theorem C2_backward_loss_aggregation_witness :
    backwardTotalLoss (some [("a", (1:Rat)/2), ("b", 1)]) [("a", 2), ("b", 3)]
      = Except.ok 4
    ∧ backwardTotalLoss none [("c", (5:Rat))] = Except.ok 5
    ∧ backwardTotalLoss none [("a", (2:Rat)), ("b", 3)]
      = Except.error BackwardErr.multipleLossesWithoutWeights := by
  have H := C2_backward_loss_aggregation [("a", (2:Rat)), ("b", 3)] (by decide)
  refine ⟨?_, H.2.1 "c" 5, H.2.2.1.mpr (by decide)⟩
  have h1 := H.1 [("a", (1:Rat)/2), ("b", 1)] (by decide)
  rw [h1]
  refine congrArg Except.ok ?_
  dsimp only [List.foldl]
  have e1 : List.lookup "a" [("a", (1:Rat)/2), ("b", 1)] = some (1/2) := rfl
  have e2 : List.lookup "b" [("a", (1:Rat)/2), ("b", 1)] = some 1 := rfl
  rw [e1, e2]
  norm_num

/-- State of `ContextTimerDict` (`trainer.py` lines 24-67): named lists of
duration samples in insertion order (`defaultdict(list)`). -/
structure ContextTimerDict where
  timings : List (String × List Rat)
  deriving DecidableEq

/-- Append a duration to the named list, creating the entry when absent
(`defaultdict(list)` plus `list.append`). -/
def appendTiming : List (String × List Rat) → String → Rat → List (String × List Rat)
  | [], item, d => [(item, [d])]
  | (k, v) :: rest, item, d =>
    if k = item then (k, v ++ [d]) :: rest
    else (k, v) :: appendTiming rest item d

/-- The `ContextTimerDict.__getitem__` context manager (`trainer.py` lines
51-57): take a start timestamp, run the body, and on normal exit append
`end - start` to the named list; if the body raises, the append after the
`yield` is never reached, so the in-flight measurement is discarded and the
exception propagates. -/
def ContextTimerDict.region (td : ContextTimerDict) (item : String)
    (body : Except String Unit) (start stop : Rat) :
    ContextTimerDict × Except String Unit :=
  match body with
  | .ok _ => ({ timings := appendTiming td.timings item (stop - start) }, .ok ())
  | .error e => (td, .error e)

/-- C9: two measured regions under the same name that complete normally
accumulate exactly the two duration samples for that name, while a region
whose body raises contributes no sample (state unchanged, exception
propagated). -/
theorem C9_context_timer_accumulation (item : String) (s1 e1 s2 e2 : Rat)
    (td : ContextTimerDict) (err : String) (s3 e3 : Rat) :
    ((ContextTimerDict.region
        ((ContextTimerDict.region ⟨[]⟩ item (Except.ok ()) s1 e1).1
          ) item (Except.ok ()) s2 e2).1).timings.lookup item
      = some [e1 - s1, e2 - s2]
    ∧ ContextTimerDict.region td item (Except.error err) s3 e3
      = (td, Except.error err) := by
  constructor
  · show (appendTiming (appendTiming [] item (e1 - s1)) item (e2 - s2)).lookup item
      = some [e1 - s1, e2 - s2]
    have h1 : appendTiming [] item (e1 - s1) = [(item, [e1 - s1])] := rfl
    rw [h1]
    simp [appendTiming, List.lookup]
  · rfl

/-- The histogram cap of `Trainer.update_summary` (`trainer.py` line 330). -/
def histCap : Nat := 10000

/-- The last `n` elements of a list, Python's `l[-n:]`. -/
def lastN (n : Nat) (l : List Rat) : List Rat := l.drop (l.length - n)

/-- The histogram merge of `Trainer.update_summary` (`trainer.py` lines
326-330): concatenate the stored values with the incoming ones and keep the
last 10,000 (`np.concatenate([...])[-10000:]`). -/
def updateSummaryHist (stored incoming : List Rat) : List Rat :=
  lastN histCap (stored ++ incoming)

/-- The histogram recording of `Trainer.clip_grad` (`trainer.py` lines
301-318): a bare `list.append` of the gradient norm onto the histogram entry,
with no cap. -/
def clipGradHistAppend (stored : List Rat) (v : Rat) : List Rat := stored ++ [v]

/-- Concatenation of a list of lists. -/
def concatAll : List (List Rat) → List Rat
  | [] => []
  | l :: rest => l ++ concatAll rest

theorem clipGrad_iterate_length (v : Rat) :
    ∀ (n : Nat) (l : List Rat),
      ((fun s => clipGradHistAppend s v)^[n] l).length = l.length + n := by
  intro n
  induction n with
  | zero => intro l; rfl
  | succ m ih =>
    intro l
    rw [Function.iterate_succ_apply, ih]
    simp [clipGradHistAppend]
    omega

/-- C6 counterexample: 10,001 `clip_grad` recordings under one histogram key
leave 10,001 stored samples — `clip_grad` appends with no cap, so the claimed
10,000-sample bound over every sequence of update operations (including
`clip_grad` recordings) fails. -/
theorem C6_histogram_cap_counterexample :
    10000 < ((fun s => clipGradHistAppend s 0)^[10001] ([] : List Rat)).length := by
  rw [clipGrad_iterate_length 0 10001 []]
  norm_num

theorem lastN_lastN_append (n : Nat) (a b : List Rat) :
    lastN n (lastN n a ++ b) = lastN n (a ++ b) := by
  unfold lastN
  rcases le_or_lt a.length n with h | h
  · have h0 : a.length - n = 0 := by omega
    simp [h0]
  · have hlen : (a.drop (a.length - n)).length = n := by
      rw [List.length_drop]; omega
    rw [List.length_append, List.length_append, hlen,
      List.drop_append_eq_append_drop, List.drop_append_eq_append_drop,
      List.drop_drop]
    congr 1
    · congr 1
      omega
    · congr 1
      rw [hlen]
      omega

theorem histFold_general :
    ∀ (incs : List (List Rat)) (s : List Rat),
      List.foldl updateSummaryHist (lastN histCap s) incs
        = lastN histCap (s ++ concatAll incs) := by
  intro incs
  induction incs with
  | nil =>
    intro s
    rw [List.foldl_nil, show concatAll [] = [] from rfl, List.append_nil]
  | cons x rest ih =>
    intro s
    rw [List.foldl_cons]
    show List.foldl updateSummaryHist (lastN histCap (lastN histCap s ++ x)) rest = _
    rw [lastN_lastN_append, ih (s ++ x),
      show concatAll (x :: rest) = x ++ concatAll rest from rfl,
      List.append_assoc]

/-- C6 amended: for every sequence of `update_summary` histogram merges on a
key, the stored histogram is exactly the last 10,000 of all values added so
far (most recent retained, oldest trimmed) and so holds at most 10,000
samples; `clip_grad` recordings, by contrast, append without a cap (see the
counterexample). -/
theorem C6_histogram_cap (incs : List (List Rat)) :
    List.foldl updateSummaryHist [] incs = lastN histCap (concatAll incs)
    ∧ (List.foldl updateSummaryHist [] incs).length ≤ histCap := by
  have h := histFold_general incs []
  have h0 : lastN histCap ([] : List Rat) = [] := rfl
  rw [h0] at h
  simp only [List.nil_append] at h
  refine ⟨h, ?_⟩
  rw [h]
  unfold lastN
  rw [List.length_drop]
  omega

/-- The two timing keys treated specially by `add_summary`
(`trainer.py` line 344). -/
def timeKeys : List String := ["time_per_data_loading", "time_per_train_step"]

/-- Renaming performed in the ratio branch of `add_summary`
(`trainer.py` lines 356-359). -/
def renameTimeKey (k : String) : String :=
  if k = "time_per_data_loading" then "time_rel_data_loading"
  else if k = "time_per_train_step" then "time_rel_train_step"
  else k

/-- Sum of a list of rationals (`np.ndarray.sum`). -/
def listSum (l : List Rat) : Rat := l.foldl (· + ·) 0

/-- Mean of a list of rationals (`np.ndarray.mean`). -/
def listMean (l : List Rat) : Rat := listSum l / (l.length : Rat)

/-- One pass of the timing-scalar loop of `Trainer.add_summary`
(`trainer.py` lines 343-364): for entry `(k, xs)` of `timer.as_dict`, when `k`
is one of the two special timing keys and `time_per_step` is present, print
the length-mismatch warning if the lengths differ, then (in either case)
replace the value by `xs.sum() / time_per_step.sum()` and rename the key;
when `time_per_step` is absent, fall through (`pass`).  Finally emit
`scalar.mean()` under the (possibly renamed) key.  Returns the emitted
`(key, value)` pair and whether the warning was printed. -/
def timerEmitOne (timer : List (String × List Rat)) (k : String) (xs : List Rat) :
    (String × Rat) × Bool :=
  if k ∈ timeKeys then
    match timer.lookup "time_per_step" with
    | some tps =>
      ((renameTimeKey k, listSum xs / listSum tps), decide (tps.length ≠ xs.length))
    | none => ((k, listMean xs), false)
  else ((k, listMean xs), false)

/-- The full timing-scalar emission loop of `add_summary` over
`timer.as_dict` in insertion order. -/
def timerEmissions (timer : List (String × List Rat)) :
    List ((String × Rat) × Bool) :=
  timer.map fun kv => timerEmitOne timer kv.1 kv.2

/-- C7 counterexample: with `time_per_step = [1]` and
`time_per_data_loading = [1, 2]` (a length mismatch), `add_summary` prints
the warning but still computes and emits the ratio
`time_rel_data_loading = (1+2)/1 = 3` — the assignment
`scalar = scalar.sum() / time_per_step.sum()` sits outside the mismatch
check, so the ratio is not skipped as the claim states. -/
theorem C7_timing_ratio_counterexample :
    timerEmissions [("time_per_step", [1]), ("time_per_data_loading", [1, 2])]
      = [(("time_per_step", 1), false), (("time_rel_data_loading", 3), true)] := by
  have h1 : listMean [1] = 1 := by
    unfold listMean listSum
    norm_num
  have h2 : listSum [(1:Rat), 2] / listSum [1] = 3 := by
    unfold listSum
    norm_num
  unfold timerEmissions
  rw [List.map_cons, List.map_cons, List.map_nil]
  unfold timerEmitOne
  rw [if_neg (by decide), if_pos (by decide)]
  have hlk : List.lookup "time_per_step"
      [("time_per_step", [(1:Rat)]), ("time_per_data_loading", [1, 2])]
      = some [1] := rfl
  rw [hlk]
  dsimp only
  rw [h1, h2]
  rfl

/-- C7 amended: during `add_summary` the derived timing ratio for a special
timing key is computed and emitted whenever the `time_per_step` series is
present — on a length mismatch a warning is printed but the ratio is still
emitted (it is not skipped); only when `time_per_step` is absent is the
ratio omitted, the raw series mean being emitted under the original key with
no warning. -/
theorem C7_timing_ratio_emission (timer : List (String × List Rat))
    (k : String) (xs tps : List Rat) :
    (k ∈ timeKeys → timer.lookup "time_per_step" = some tps →
      tps.length ≠ xs.length →
      timerEmitOne timer k xs = ((renameTimeKey k, listSum xs / listSum tps), true))
    ∧ (k ∈ timeKeys → timer.lookup "time_per_step" = some tps →
      tps.length = xs.length →
      timerEmitOne timer k xs = ((renameTimeKey k, listSum xs / listSum tps), false))
    ∧ (timer.lookup "time_per_step" = none →
      timerEmitOne timer k xs = ((k, listMean xs), false)) := by
  refine ⟨?_, ?_, ?_⟩
  · intro hk hlk hne
    unfold timerEmitOne
    rw [if_pos hk, hlk]
    dsimp only
    rw [decide_eq_true hne]
  · intro hk hlk heq
    unfold timerEmitOne
    rw [if_pos hk, hlk]
    dsimp only
    have hd : decide (tps.length ≠ xs.length) = false := by
      simp [heq]
    rw [hd]
  · intro hlk
    unfold timerEmitOne
    by_cases hk : k ∈ timeKeys
    · rw [if_pos hk, hlk]
    · rw [if_neg hk]

/-- Witness for C7: concrete instances of the three emission cases. -/
theorem C7_timing_ratio_emission_witness :
    timerEmitOne [("time_per_step", [1]), ("time_per_data_loading", [1, 2])]
      "time_per_data_loading" [1, 2]
      = (("time_rel_data_loading", 3), true)
    ∧ timerEmitOne [("time_per_step", [2]), ("time_per_train_step", [1])]
      "time_per_train_step" [1]
      = (("time_rel_train_step", 1/2), false)
    ∧ timerEmitOne [("time_per_data_loading", [1, 2])]
      "time_per_data_loading" [1, 2]
      = (("time_per_data_loading", 3/2), false) := by
  have H1 := (C7_timing_ratio_emission
    [("time_per_step", [1]), ("time_per_data_loading", [1, 2])]
    "time_per_data_loading" [1, 2] [1]).1 (by decide) rfl (by decide)
  have H2 := (C7_timing_ratio_emission
    [("time_per_step", [2]), ("time_per_train_step", [1])]
    "time_per_train_step" [1] [2]).2.1 (by decide) rfl rfl
  have H3 := (C7_timing_ratio_emission
    [("time_per_data_loading", [(1:Rat), 2])]
    "time_per_data_loading" [1, 2] []).2.2 rfl
  refine ⟨?_, ?_, ?_⟩
  · rw [H1]
    have : listSum [(1:Rat), 2] / listSum [1] = 3 := by
      unfold listSum; norm_num
    rw [this]
    rfl
  · rw [H2]
    have : listSum [(1:Rat)] / listSum [2] = 1/2 := by
      unfold listSum; norm_num
    rw [this]
    rfl
  · rw [H3]
    have : listMean [(1:Rat), 2] = 3/2 := by
      unfold listMean listSum; norm_num
    rw [this]

/-- A possibly nested structure of values, as handled by `nested_op`: a leaf,
or an ordered mapping represented as a chain of keyed entries. -/
inductive Nested (α : Type) where
  | leaf (a : α)
  | nil
  | entry (key : String) (val : Nested α) (rest : Nested α)
  deriving DecidableEq

/-- Two nested structures have the same shape (same nesting and keys). -/
def sameShape {α β : Type} : Nested α → Nested β → Bool
  | .leaf _, .leaf _ => true
  | .nil, .nil => true
  | .entry k v r, .entry k' v' r' => k = k' && sameShape v v' && sameShape r r'
  | _, _ => false

/-- `nested_op(lambda m, d: m.load_state_dict(d), model, ckpt['model'])`
(`trainer.py` lines 419-422): walk both structures in parallel and replace
each model leaf's parameters by the checkpoint leaf; a structural mismatch is
an error (`none`). -/
def restoreModelState : Nested Rat → Nested Rat → Option (Nested Rat)
  | .leaf _, .leaf d => some (.leaf d)
  | .nil, .nil => some .nil
  | .entry k v r, .entry k' v' r' =>
    if k = k' then
      match restoreModelState v v', restoreModelState r r' with
      | some nv, some nr => some (.entry k nv nr)
      | _, _ => none
    else none
  | _, _ => none

/-- `nested_op(lambda opti, d: opti.load_state_dict(d) if opti is not None
else None, optimizer, ckpt['optimizer'])` (`trainer.py` lines 426-430):
absent optimizer entries stay absent, present ones take the saved state. -/
def restoreOptState : Nested (Option Rat) → Nested (Option Rat) →
    Option (Nested (Option Rat))
  | .leaf none, .leaf _ => some (.leaf none)
  | .leaf (some _), .leaf (some d) => some (.leaf (some d))
  | .leaf (some _), .leaf none => none
  | .nil, .nil => some .nil
  | .entry k v r, .entry k' v' r' =>
    if k = k' then
      match restoreOptState v v', restoreOptState r r' with
      | some nv, some nr => some (.entry k nv nr)
      | _, _ => none
    else none
  | _, _ => none

/-- The persisted checkpoint record of `Trainer.save_checkpoint`
(`trainer.py` lines 390-398): model state, iteration, epoch, optimizer
state (absent optimizers saved as null). -/
structure Checkpoint where
  model : Nested Rat
  iteration : Int
  epoch : Int
  optimizer : Nested (Option Rat)
  deriving DecidableEq

/-- The part of the `Trainer` state touched by `load_checkpoint`. -/
structure CkptTrainer where
  model : Nested Rat
  optimizer : Nested (Option Rat)
  iteration : Int
  epoch : Int
  deriving DecidableEq

inductive LoadErr where
  | missingFile
  | stateMismatch
  deriving DecidableEq

/-- `Trainer.load_checkpoint` (`trainer.py` lines 405-431): assert the path
is a file (a missing file is an error raised before any state change), then
restore the model state structurally, set `iteration = loaded_iteration + 1`
and `epoch = loaded_epoch`, and restore the optimizer state structurally.
The filesystem is an association list from paths to checkpoint records. -/
def loadCheckpoint (tr : CkptTrainer) (fs : List (String × Checkpoint))
    (path : String) : CkptTrainer × Option LoadErr :=
  match fs.lookup path with
  | none => (tr, some .missingFile)
  | some ck =>
    match restoreModelState tr.model ck.model with
    | none => (tr, some .stateMismatch)
    | some m =>
      match restoreOptState tr.optimizer ck.optimizer with
      | none => (tr, some .stateMismatch)
      | some o =>
        ({ model := m, optimizer := o,
           iteration := ck.iteration + 1, epoch := ck.epoch }, none)

theorem restoreModelState_of_sameShape :
    ∀ (n d : Nested Rat), sameShape n d = true → restoreModelState n d = some d := by
  intro n
  induction n with
  | leaf a =>
    intro d hs
    cases d with
    | leaf b => rfl
    | nil => exact absurd hs (by simp [sameShape])
    | entry k v r => exact absurd hs (by simp [sameShape])
  | nil =>
    intro d hs
    cases d with
    | leaf b => exact absurd hs (by simp [sameShape])
    | nil => rfl
    | entry k v r => exact absurd hs (by simp [sameShape])
  | entry k v r ihv ihr =>
    intro d hs
    cases d with
    | leaf b => exact absurd hs (by simp [sameShape])
    | nil => exact absurd hs (by simp [sameShape])
    | entry k' v' r' =>
      unfold sameShape at hs
      have h3 := Bool.and_eq_true_iff.mp hs
      have h12 := Bool.and_eq_true_iff.mp h3.1
      have hk : k = k' := by
        have := h12.1
        simpa using this
      unfold restoreModelState
      rw [if_pos hk, ihv v' h12.2, ihr r' h3.2, hk]

/-- C4: `load_checkpoint` on a stored record with iteration `n` and epoch `e`
restores the model and optimizer state structurally and sets the trainer's
counters to `n + 1` and `e` (resuming at 7 yields 8); moreover a same-shaped
model state is restored to exactly the checkpoint's recorded state; and
`load_checkpoint` on a missing path fails with the missing-file error and
leaves the trainer state unchanged. -/
theorem C4_load_checkpoint (tr : CkptTrainer) (fs : List (String × Checkpoint))
    (path : String) (ck : Checkpoint) (m : Nested Rat) (o : Nested (Option Rat)) :
    (fs.lookup path = some ck →
      restoreModelState tr.model ck.model = some m →
      restoreOptState tr.optimizer ck.optimizer = some o →
      loadCheckpoint tr fs path =
        ({ model := m, optimizer := o,
           iteration := ck.iteration + 1, epoch := ck.epoch }, none))
    ∧ (sameShape tr.model ck.model = true →
        restoreModelState tr.model ck.model = some ck.model)
    ∧ (fs.lookup path = none →
        loadCheckpoint tr fs path = (tr, some LoadErr.missingFile)) := by
  refine ⟨?_, ?_, ?_⟩
  · intro hlk hm ho
    unfold loadCheckpoint
    rw [hlk]
    dsimp only
    rw [hm]
    dsimp only
    rw [ho]
  · exact restoreModelState_of_sameShape tr.model ck.model
  · intro hlk
    unfold loadCheckpoint
    rw [hlk]

/-- Witness for C4: loading a checkpoint saved at iteration `7`, epoch `2`
sets the resumed counters to `8` and `2` and installs the stored model and
optimizer state; looking up a path that is not in the filesystem gives the
missing-file error with the trainer untouched. -/
theorem C4_load_checkpoint_witness :
    loadCheckpoint
      { model := Nested.entry "lin" (.leaf 0) .nil,
        optimizer := Nested.entry "opt" (.leaf (some 0)) .nil,
        iteration := 7, epoch := 2 }
      [("ckpt_7", { model := Nested.entry "lin" (.leaf 5) .nil,
                    iteration := 7, epoch := 2,
                    optimizer := Nested.entry "opt" (.leaf (some 9)) .nil })]
      "ckpt_7"
      = ({ model := Nested.entry "lin" (.leaf 5) .nil,
           optimizer := Nested.entry "opt" (.leaf (some 9)) .nil,
           iteration := 8, epoch := 2 }, none)
    ∧ loadCheckpoint
      { model := Nested.leaf 0, optimizer := Nested.leaf none,
        iteration := 7, epoch := 2 }
      [] "ckpt_9"
      = ({ model := Nested.leaf 0, optimizer := Nested.leaf none,
           iteration := 7, epoch := 2 }, some LoadErr.missingFile) := by
  have H := C4_load_checkpoint
      { model := Nested.entry "lin" (.leaf 0) .nil,
        optimizer := Nested.entry "opt" (.leaf (some 0)) .nil,
        iteration := 7, epoch := 2 }
      [("ckpt_7", { model := Nested.entry "lin" (.leaf 5) .nil,
                    iteration := 7, epoch := 2,
                    optimizer := Nested.entry "opt" (.leaf (some 9)) .nil })]
      "ckpt_7"
      { model := Nested.entry "lin" (.leaf 5) .nil,
        iteration := 7, epoch := 2,
        optimizer := Nested.entry "opt" (.leaf (some 9)) .nil }
      (Nested.entry "lin" (.leaf 5) .nil)
      (Nested.entry "opt" (.leaf (some 9)) .nil)
  have H2 := C4_load_checkpoint
      { model := Nested.leaf 0, optimizer := Nested.leaf none,
        iteration := 7, epoch := 2 }
      [] "ckpt_9"
      { model := Nested.leaf 0, iteration := 0, epoch := 0,
        optimizer := Nested.leaf none }
      (Nested.leaf 0) (Nested.leaf none)
  exact ⟨H.1 rfl rfl rfl, H2.2.2 rfl⟩

/-- Observable actions of the training loop (`trainer.py` lines 183-228):
validation passes, summary flushes, checkpoint saves, and train steps, each
tagged with the iteration counter at which they happen. -/
inductive TrainEvent where
  | validate (iteration : Int)
  | addSummary (iteration : Int)
  | saveCheckpoint (iteration : Int)
  | trainStep (iteration : Int)
  deriving DecidableEq

/-- The loop-control state of a `Trainer`: the two counters and the four
triggers (`max_iterations` is an `EndTrigger` sharing the trigger shape). -/
structure TrainerState where
  iteration : Int
  epoch : Int
  summaryTrigger : IntervalTrigger
  checkpointTrigger : IntervalTrigger
  validationTrigger : IntervalTrigger
  maxTrigger : IntervalTrigger
  deriving DecidableEq

/-- The check sequence at the top of each loop iteration (`trainer.py` lines
186-207): validation trigger (flush + validate on fire), then the
`max_iterations` end check (`return`), then summary and checkpoint triggers,
each also forced when the global iteration equals 1.  Returns the updated
state, the emitted events, and whether the end trigger fired. -/
def trainChecks (s : TrainerState) : TrainerState × List TrainEvent × Bool :=
  let v := s.validationTrigger.call s.iteration s.epoch
  let evs1 := if v.1 = true then
    [TrainEvent.addSummary s.iteration, TrainEvent.validate s.iteration] else []
  let s1 : TrainerState := { s with validationTrigger := v.2 }
  if EndTrigger.call s1.maxTrigger s1.iteration s1.epoch then (s1, evs1, true)
  else
    let sm := s1.summaryTrigger.call s1.iteration s1.epoch
    let evs2 := if sm.1 = true ∨ s1.iteration = 1 then
      [TrainEvent.addSummary s1.iteration] else []
    let s2 : TrainerState := { s1 with summaryTrigger := sm.2 }
    let cp := s2.checkpointTrigger.call s2.iteration s2.epoch
    let evs3 := if cp.1 = true ∨ s2.iteration = 1 then
      [TrainEvent.saveCheckpoint s2.iteration] else []
    let s3 : TrainerState := { s2 with checkpointTrigger := cp.2 }
    (s3, evs1 ++ evs2 ++ evs3, false)

/-- How one epoch's inner loop ended: `break` on an exhausted iterator after
at least one global iteration, `return` from the end trigger, or the
zero-length-iterator exception. -/
inductive InnerExit where
  | broke
  | finished
  | failed
  deriving DecidableEq

/-- The inner loop over `itertools.count(self.iteration)` (`trainer.py`
lines 186-224), given the number of batches remaining in this epoch's
iterator: run the checks; on end-trigger fire return; otherwise pull a batch —
an exhausted iterator breaks to the next epoch when `self.iteration > 0` and
raises `Exception('Zero length train iterator')` otherwise (lines 210-217);
a successful pull runs the train step and continues with the incremented
iteration counter. -/
def innerLoop : TrainerState → Nat → List TrainEvent × TrainerState × InnerExit
  | s, 0 =>
    let c := trainChecks s
    if c.2.2 = true then (c.2.1, c.1, InnerExit.finished)
    else if 0 < c.1.iteration then (c.2.1, c.1, InnerExit.broke)
    else (c.2.1, c.1, InnerExit.failed)
  | s, n + 1 =>
    let c := trainChecks s
    if c.2.2 = true then (c.2.1, c.1, InnerExit.finished)
    else
      let rest := innerLoop { c.1 with iteration := c.1.iteration + 1 } n
      (c.2.1 ++ TrainEvent.trainStep c.1.iteration :: rest.1, rest.2)

/-- Whether a run of the modelled loop terminated, raised the
zero-length-iterator exception, or ran out of modelling fuel. -/
inductive TrainExit where
  | finished
  | zeroLengthError
  | fuelOut
  deriving DecidableEq

/-- The outer loop over `itertools.count(self.epoch)` (`trainer.py` line
184): each pass obtains a fresh iterator over the training source (modelled
by the number of batches the source yields at that epoch) and runs the inner
loop; a `break` increments the epoch and continues.  `fuel` bounds the number
of epochs modelled. -/
def outerLoop : Nat → TrainerState → (Int → Nat) →
    List TrainEvent × TrainerState × TrainExit
  | 0, s, _ => ([], s, TrainExit.fuelOut)
  | f + 1, s, source =>
    let r := innerLoop s (source s.epoch)
    match r.2.2 with
    | InnerExit.finished => (r.1, r.2.1, TrainExit.finished)
    | InnerExit.failed => (r.1, r.2.1, TrainExit.zeroLengthError)
    | InnerExit.broke =>
      let rest := outerLoop f { r.2.1 with epoch := r.2.1.epoch + 1 } source
      (r.1 ++ rest.1, rest.2)

/-- The watermark seeding at the top of `Trainer.train` (`trainer.py` lines
177-180): `set_last(self.iteration, self.epoch)` on the summary, checkpoint
and validation triggers. -/
def seedTriggers (s : TrainerState) : TrainerState :=
  { s with
    summaryTrigger := s.summaryTrigger.setLast s.iteration s.epoch,
    checkpointTrigger := s.checkpointTrigger.setLast s.iteration s.epoch,
    validationTrigger := s.validationTrigger.setLast s.iteration s.epoch }

/-- `Trainer.train` (`trainer.py` lines 165-228): seed the trigger
watermarks, run the loop inside `try`, and in the `finally` block — on normal
return and on a propagating exception alike — flush the pending summary and
save a final checkpoint.  A fuel-out run is still inside the loop and has not
reached the cleanup. -/
def train (fuel : Nat) (s0 : TrainerState) (source : Int → Nat) :
    List TrainEvent × TrainerState × TrainExit :=
  match outerLoop fuel (seedTriggers s0) source with
  | (evs, st, TrainExit.fuelOut) => (evs, st, TrainExit.fuelOut)
  | (evs, st, TrainExit.finished) =>
    (evs ++ [TrainEvent.addSummary st.iteration,
             TrainEvent.saveCheckpoint st.iteration], st, TrainExit.finished)
  | (evs, st, TrainExit.zeroLengthError) =>
    (evs ++ [TrainEvent.addSummary st.iteration,
             TrainEvent.saveCheckpoint st.iteration], st,
     TrainExit.zeroLengthError)

theorem seeded_call_self (t : IntervalTrigger) (i e : Int) :
    (t.setLast i e).call i e = (false, t.setLast i e) := by
  unfold IntervalTrigger.setLast IntervalTrigger.call
  dsimp only
  rw [if_pos rfl]

theorem trainChecks_seeded (s : TrainerState)
    (hend : EndTrigger.call s.maxTrigger s.iteration s.epoch = false) :
    trainChecks (seedTriggers s)
      = (seedTriggers s,
         (if s.iteration = 1 then
            [TrainEvent.addSummary s.iteration,
             TrainEvent.saveCheckpoint s.iteration] else []),
         false) := by
  unfold trainChecks seedTriggers
  dsimp only
  rw [seeded_call_self]
  dsimp only
  rw [if_neg (by rw [hend]; exact Bool.false_ne_true)]
  rw [seeded_call_self]
  dsimp only
  rw [seeded_call_self]
  dsimp only
  by_cases h1 : s.iteration = 1
  · rw [if_pos (Or.inr h1), if_pos (Or.inr h1), if_pos h1]
    rfl
  · have hcond : ¬ (false = true ∨ s.iteration = 1) := by
      rintro (hf | hi)
      · exact Bool.false_ne_true hf
      · exact h1 hi
    rw [if_neg hcond, if_neg hcond, if_neg h1]
    rfl

/-- C10: `train` seeds the summary, checkpoint, and validation trigger
watermarks with the entry counters via `set_last`, so a seeded trigger called
at the entry counters returns `false` with its state unchanged — whatever the
entry counters are, even at a multiple of the period — and the first loop
iteration after entry emits no trigger-driven events; the only forced actions
are the summary flush and checkpoint save when the global iteration equals
1. -/
theorem C10_entry_seeding (s : TrainerState) (t : IntervalTrigger) (i e : Int) :
    ((t.setLast i e).call i e = (false, t.setLast i e))
    ∧ (s.iteration ≠ 1 →
        EndTrigger.call s.maxTrigger s.iteration s.epoch = false →
        (trainChecks (seedTriggers s)).2.1 = [])
    ∧ (s.iteration = 1 →
        EndTrigger.call s.maxTrigger s.iteration s.epoch = false →
        (trainChecks (seedTriggers s)).2.1
          = [TrainEvent.addSummary 1, TrainEvent.saveCheckpoint 1])
    ∧ (EndTrigger.call s.maxTrigger s.iteration s.epoch = true →
        (trainChecks (seedTriggers s)).2.1 = []) := by
  refine ⟨seeded_call_self t i e, ?_, ?_, ?_⟩
  · intro h1 hend
    rw [trainChecks_seeded s hend]
    dsimp only
    rw [if_neg h1]
  · intro h1 hend
    rw [trainChecks_seeded s hend]
    dsimp only
    rw [if_pos h1, h1]
  · intro hend
    unfold trainChecks seedTriggers
    dsimp only
    rw [seeded_call_self]
    dsimp only
    rw [if_pos (by rw [hend])]
    rfl

/-- Witness for C10: a trainer entering `train` at iteration 5, epoch 3 with
periods 5 (iteration), 1 (epoch) and 3 (epoch) — every entry counter a
multiple of its trigger's period — emits nothing at the first loop iteration;
entering at iteration 1 emits exactly the forced flush and save. -/
theorem C10_entry_seeding_witness :
    ((IntervalTrigger.setLast { period := 5, unit := TUnit.iteration, last := 0 } 5 3).call 5 3
      = (false, { period := 5, unit := TUnit.iteration, last := 5 }))
    ∧ (trainChecks (seedTriggers
        { iteration := 5, epoch := 3,
          summaryTrigger := { period := 1, unit := TUnit.epoch, last := 0 },
          checkpointTrigger := { period := 5, unit := TUnit.iteration, last := 0 },
          validationTrigger := { period := 3, unit := TUnit.epoch, last := 0 },
          maxTrigger := { period := 100, unit := TUnit.iteration, last := 0 } })).2.1
      = []
    ∧ (trainChecks (seedTriggers
        { iteration := 1, epoch := 0,
          summaryTrigger := { period := 1, unit := TUnit.epoch, last := 0 },
          checkpointTrigger := { period := 5, unit := TUnit.iteration, last := 0 },
          validationTrigger := { period := 1, unit := TUnit.epoch, last := 0 },
          maxTrigger := { period := 100, unit := TUnit.iteration, last := 0 } })).2.1
      = [TrainEvent.addSummary 1, TrainEvent.saveCheckpoint 1] := by
  refine ⟨?_, ?_, ?_⟩
  · exact (C10_entry_seeding
      { iteration := 5, epoch := 3,
        summaryTrigger := { period := 1, unit := TUnit.epoch, last := 0 },
        checkpointTrigger := { period := 5, unit := TUnit.iteration, last := 0 },
        validationTrigger := { period := 3, unit := TUnit.epoch, last := 0 },
        maxTrigger := { period := 100, unit := TUnit.iteration, last := 0 } }
      { period := 5, unit := TUnit.iteration, last := 0 } 5 3).1
  · exact (C10_entry_seeding
      { iteration := 5, epoch := 3,
        summaryTrigger := { period := 1, unit := TUnit.epoch, last := 0 },
        checkpointTrigger := { period := 5, unit := TUnit.iteration, last := 0 },
        validationTrigger := { period := 3, unit := TUnit.epoch, last := 0 },
        maxTrigger := { period := 100, unit := TUnit.iteration, last := 0 } }
      { period := 5, unit := TUnit.iteration, last := 0 } 5 3).2.1
      (by decide) (by decide)
  · exact (C10_entry_seeding
      { iteration := 1, epoch := 0,
        summaryTrigger := { period := 1, unit := TUnit.epoch, last := 0 },
        checkpointTrigger := { period := 5, unit := TUnit.iteration, last := 0 },
        validationTrigger := { period := 1, unit := TUnit.epoch, last := 0 },
        maxTrigger := { period := 100, unit := TUnit.iteration, last := 0 } }
      { period := 5, unit := TUnit.iteration, last := 0 } 5 3).2.2.1
      (by decide) (by decide)

theorem trainChecks_iteration (s : TrainerState) :
    (trainChecks s).1.iteration = s.iteration := by
  unfold trainChecks
  dsimp only
  split <;> rfl

/-- A fresh trainer with `max_iterations = 10` and
`checkpoint_step = (5, 'iteration')` (summary and validation at the default
`(1, 'epoch')`). -/
def c3Cfg : TrainerState :=
  { iteration := 0, epoch := 0,
    summaryTrigger := { period := 1, unit := TUnit.epoch, last := 0 },
    checkpointTrigger := { period := 5, unit := TUnit.iteration, last := 0 },
    validationTrigger := { period := 1, unit := TUnit.epoch, last := 0 },
    maxTrigger := { period := 10, unit := TUnit.iteration, last := 0 } }

/-- C3: training a fresh trainer with `max_iterations = 10` and
`checkpoint_step = (5, 'iteration')` over a 100-batch source saves
checkpoints exactly at iterations 1 (globally-first forced save), 5 (period
fire) and 10 (final save when the end trigger fires) and terminates; and for
every configuration, source and fuel, any run that exits the loop — normal
termination or propagating zero-length failure alike — ends with the
`finally` block's summary flush and final checkpoint save. -/
theorem C3_checkpoint_schedule :
    (((train 3 c3Cfg (fun _ => 100)).1.filterMap fun e =>
        match e with
        | TrainEvent.saveCheckpoint i => some i
        | _ => none) = [1, 5, 10])
    ∧ (train 3 c3Cfg (fun _ => 100)).2.2 = TrainExit.finished
    ∧ (∀ (fuel : Nat) (s0 : TrainerState) (source : Int → Nat),
        (train fuel s0 source).2.2 ≠ TrainExit.fuelOut →
        (train fuel s0 source).1
          = (outerLoop fuel (seedTriggers s0) source).1
            ++ [TrainEvent.addSummary (train fuel s0 source).2.1.iteration,
                TrainEvent.saveCheckpoint (train fuel s0 source).2.1.iteration]) := by
  refine ⟨by decide, by decide, ?_⟩
  intro fuel s0 source hne
  unfold train at hne ⊢
  rcases hr : outerLoop fuel (seedTriggers s0) source with ⟨evs, st, ex⟩
  cases ex with
  | finished => rfl
  | zeroLengthError => rfl
  | fuelOut =>
    rw [hr] at hne
    exact absurd rfl hne

/-- Witness for C3: the 10-iteration run exits normally, so its event list is
the loop's events followed by the final flush and the final checkpoint at
iteration 10. -/
theorem C3_checkpoint_schedule_witness :
    (train 3 c3Cfg (fun _ => 100)).1
      = (outerLoop 3 (seedTriggers c3Cfg) (fun _ => 100)).1
        ++ [TrainEvent.addSummary 10, TrainEvent.saveCheckpoint 10] := by
  have H := C3_checkpoint_schedule.2.2 3 c3Cfg (fun _ => 100) (by decide)
  rw [show (train 3 c3Cfg (fun _ => 100)).2.1.iteration = 10 from by decide] at H
  exact H

/-- The trainer configuration of the C5 counterexample: triggers with period
100 on iterations, `max_epochs = 2`. -/
def c5Cfg : TrainerState :=
  { iteration := 0, epoch := 0,
    summaryTrigger := { period := 100, unit := TUnit.iteration, last := 0 },
    checkpointTrigger := { period := 100, unit := TUnit.iteration, last := 0 },
    validationTrigger := { period := 100, unit := TUnit.iteration, last := 0 },
    maxTrigger := { period := 2, unit := TUnit.epoch, last := 0 } }

/-- A training source that yields 3 batches in epoch 0 and none afterwards. -/
def c5Source : Int → Nat := fun e => if e = 0 then 3 else 0

/-- C5 counterexample: with 3 batches in epoch 0 and an empty iterator in
epoch 1, the iterator is exhausted on the very first pull of epoch 1 (no
train step runs at or after iteration 3), yet the loop breaks to epoch 2 and
the run finishes without the zero-length error — the guard at
`trainer.py` line 214 tests the global `self.iteration > 0`, not the
per-epoch count the claim describes. -/
theorem C5_exhaustion_counterexample :
    c5Source 1 = 0
    ∧ ((train 5 c5Cfg c5Source).1.filterMap fun e =>
        match e with
        | TrainEvent.trainStep i => some i
        | _ => none) = [0, 1, 2]
    ∧ (train 5 c5Cfg c5Source).2.1.epoch = 2
    ∧ (train 5 c5Cfg c5Source).2.2 = TrainExit.finished := by
  exact ⟨rfl, by decide, by decide, by decide⟩

/-- C5 amended: the zero-length-iterator error is raised exactly when the
GLOBAL iteration counter is 0 at exhaustion — for a fresh trainer that is the
very first pull of the entire run, so a fresh trainer whose first-epoch
source is empty fails with the error (after the cleanup flush and save),
while any exhaustion with a positive global iteration counter — including the
first pull of a later epoch — breaks to the next epoch. -/
theorem C5_exhaustion_behavior (s s' : TrainerState) (source : Int → Nat)
    (f : Nat) :
    (s.iteration = 0 → s.epoch = 0 → 1 ≤ s.maxTrigger.period → source 0 = 0 →
      train (f + 1) s source
        = ([TrainEvent.addSummary 0, TrainEvent.saveCheckpoint 0],
           seedTriggers s, TrainExit.zeroLengthError))
    ∧ (0 < s'.iteration → (trainChecks s').2.2 = false →
      innerLoop s' 0
        = ((trainChecks s').2.1, (trainChecks s').1, InnerExit.broke)) := by
  constructor
  · intro h0 he0 hp hsrc
    have hsel : selectedIndex s.maxTrigger.unit s.iteration s.epoch = 0 := by
      cases s.maxTrigger.unit
      · exact he0
      · exact h0
    have hend : EndTrigger.call s.maxTrigger s.iteration s.epoch = false := by
      unfold EndTrigger.call
      rw [hsel]
      exact decide_eq_false (by omega)
    have h1ne : s.iteration ≠ 1 := by rw [h0]; decide
    have hchk := trainChecks_seeded s hend
    rw [if_neg h1ne] at hchk
    have hinner : innerLoop (seedTriggers s) 0
        = ([], seedTriggers s, InnerExit.failed) := by
      unfold innerLoop
      rw [hchk]
      dsimp only
      rw [if_neg Bool.false_ne_true]
      rw [if_neg (show ¬ 0 < (seedTriggers s).iteration by
        rw [show (seedTriggers s).iteration = s.iteration from rfl, h0]
        decide)]
    have hse : (seedTriggers s).epoch = 0 := he0
    have houter : outerLoop (f + 1) (seedTriggers s) source
        = ([], seedTriggers s, TrainExit.zeroLengthError) := by
      unfold outerLoop
      rw [hse, hsrc, hinner]
    unfold train
    rw [houter]
    dsimp only
    rw [show (seedTriggers s).iteration = 0 from h0]
    rfl
  · intro hpos hflag
    have hit := trainChecks_iteration s'
    unfold innerLoop
    rcases hc : trainChecks s' with ⟨st, evs, flag⟩
    rw [hc] at hflag hit
    dsimp only at hflag hit
    subst hflag
    dsimp only
    rw [if_neg Bool.false_ne_true]
    rw [if_pos (by rw [hit]; exact hpos)]

/-- Witness for C5: a fresh trainer over an everywhere-empty source raises
the zero-length error after the cleanup events, and a mid-run state at
iteration 3 facing an exhausted iterator breaks instead of raising. -/
theorem C5_exhaustion_behavior_witness :
    train 1 c5Cfg (fun _ => 0)
      = ([TrainEvent.addSummary 0, TrainEvent.saveCheckpoint 0],
         seedTriggers c5Cfg, TrainExit.zeroLengthError)
    ∧ innerLoop { c5Cfg with iteration := 3, epoch := 1 } 0
      = ((trainChecks { c5Cfg with iteration := 3, epoch := 1 }).2.1,
         (trainChecks { c5Cfg with iteration := 3, epoch := 1 }).1,
         InnerExit.broke) := by
  have H := C5_exhaustion_behavior c5Cfg
      { c5Cfg with iteration := 3, epoch := 1 } (fun _ => 0) 0
  exact ⟨H.1 rfl rfl (by decide) rfl, H.2 (by decide) (by decide)⟩

end Padertorch
